import Mathlib

/-!
Verification development for the `stryker` YouTube live-chat bot
(`stryker/core/chat_reader.py`, `stryker/features/{commands,polls,welcome}.py`,
`stryker/utils/storage.py`, `stryker/bot.py`).

The Python code is shallowly embedded: every definition below is translated
from the corresponding Python function.  Python strings are Lean `String`s,
Python `None`-able values are `Option`s, wall-clock times are `Int` seconds,
and the float polling interval is modelled as `ℚ` (the claims only involve
the exact constants `5` and the floor `1`).  A Python `set` is modelled by
the list of its elements; operations that depend only on membership use the
list directly, while the one place the code depends on the *enumeration
order* of a set (`list(self._seen_ids)[-2000:]`) takes that enumeration as
an explicit parameter, constrained to be a permutation of the set's
elements — CPython does not guarantee any particular order there.
-/

namespace Stryker

/-! ## Python string / dict primitives -/

/-- Characters treated as whitespace by Python's `str.strip()` / `str.split()`
(ASCII fragment, which is all the bot's config uses). -/
def isPySpace (c : Char) : Bool :=
  c = ' ' ∨ c = '\t' ∨ c = '\n' ∨ c = '\r' ∨ c = '\x0b' ∨ c = '\x0c'

/-- Python `str.lower()` (ASCII). -/
def pyLower (s : String) : String := String.mk (s.data.map Char.toLower)

/-- Python `str.strip()`. -/
def pyStrip (s : String) : String :=
  String.mk (((s.data.dropWhile isPySpace).reverse.dropWhile isPySpace).reverse)

/-- Split a character list at every character satisfying `p`, keeping empty
segments (like `str.split(sep)` / `re.split`). -/
def listSplit (p : Char → Bool) : List Char → List (List Char)
  | [] => [[]]
  | c :: rest =>
    if p c then [] :: listSplit p rest
    else
      match listSplit p rest with
      | [] => [[c]]
      | h :: t => (c :: h) :: t

/-- Python `str.split()` with no argument: split on whitespace runs,
discarding empty tokens. -/
def pySplitWS (s : String) : List String :=
  ((listSplit isPySpace s.data).filter (· ≠ [])).map String.mk

/-- Python `str.startswith`. -/
def pyStartsWith (s pre : String) : Bool := pre.data.isPrefixOf s.data

/-- Python truthiness of an optional string (`None` and `""` are falsy). -/
def pyTruthyOptStr : Option String → Bool
  | none => false
  | some s => s ≠ ""

/-- Python `"".join`. -/
def pyJoin (l : List String) : String := l.foldl (· ++ ·) ""

/-- Python `dict.__setitem__`: replace the value in place if the key is
present (insertion order preserved), otherwise append a new entry. -/
def dictSet {β : Type} (l : List (String × β)) (k : String) (v : β) :
    List (String × β) :=
  match l with
  | [] => [(k, v)]
  | (k', v') :: rest => if k' = k then (k, v) :: rest else (k', v') :: dictSet rest k v

/-- Python `set.add` on a set represented by the list of its elements. -/
def pySetAdd (s : List String) (x : String) : List String :=
  if x ∈ s then s else s ++ [x]

/-- Insert a string into a (sorted) list, by code points — used to model
Python's `sorted`. -/
def insertSorted (x : String) : List String → List String
  | [] => [x]
  | y :: ys => if x.data ≤ y.data then x :: y :: ys else y :: insertSorted x ys

/-- Python `sorted` on a list of strings (insertion sort; only the multiset
of elements matters for the claims). -/
def pySorted (l : List String) : List String := l.foldr insertSorted []

/-! ## Message model (`chat_reader.LiveChatReader._parse_action` output dict) -/

/-- The normalized message dict built by `LiveChatReader._parse_action`. -/
structure Message where
  id : String
  channel_id : String
  display_name : String
  message : String
  published_at : String
  is_owner : Bool
  is_moderator : Bool
  is_member : Bool
deriving DecidableEq, Repr

/-! ## JSON shapes consumed by `chat_reader.py`

Each structure mirrors the dictionary fields the Python code reads; a field
is an `Option` because the code accesses it with `dict.get` and a default. -/

structure EmojiJ where
  emojiId : Option String
deriving DecidableEq

structure RunJ where
  text : Option String
  emoji : Option EmojiJ
deriving DecidableEq

structure IconJ where
  iconType : Option String
deriving DecidableEq

structure BadgeRendererJ where
  icon : Option IconJ
deriving DecidableEq

structure BadgeJ where
  liveChatAuthorBadgeRenderer : Option BadgeRendererJ
deriving DecidableEq

structure AuthorNameJ where
  simpleText : Option String
deriving DecidableEq

structure MessageRunsJ where
  runs : Option (List RunJ)
deriving DecidableEq

structure RendererJ where
  message : Option MessageRunsJ
  authorName : Option AuthorNameJ
  authorExternalChannelId : Option String
  id : Option String
  timestampUsec : Option String
  authorBadges : Option (List BadgeJ)
deriving DecidableEq

structure ItemJ where
  liveChatTextMessageRenderer : Option RendererJ
deriving DecidableEq

structure AddChatItemActionJ where
  item : Option ItemJ
deriving DecidableEq

structure ActionJ where
  addChatItemAction : Option AddChatItemActionJ
deriving DecidableEq

structure ContDataJ where
  continuation : Option String
  timeoutMs : Option Int
deriving DecidableEq

structure ContJ where
  invalidationContinuationData : Option ContDataJ
  timedContinuationData : Option ContDataJ
deriving DecidableEq

structure LiveChatContinuationJ where
  actions : Option (List ActionJ)
  continuations : Option (List ContJ)
deriving DecidableEq

structure ContinuationContentsJ where
  liveChatContinuation : Option LiveChatContinuationJ
deriving DecidableEq

/-- The decoded body of one `get_live_chat` response. -/
structure ResponseJ where
  continuationContents : Option ContinuationContentsJ
deriving DecidableEq

/-- `data.get("continuationContents", {}).get("liveChatContinuation", {})`. -/
def chatDataOf (d : ResponseJ) : LiveChatContinuationJ :=
  match d.continuationContents with
  | none => { actions := none, continuations := none }
  | some cc =>
    match cc.liveChatContinuation with
    | none => { actions := none, continuations := none }
    | some lc => lc

/-! ## `LiveChatReader._parse_action` -/

/-- `run.get("text", run.get("emoji", {}).get("emojiId", ""))`. -/
def runText (r : RunJ) : String :=
  match r.text with
  | some t => t
  | none =>
    match r.emoji with
    | some e => e.emojiId.getD ""
    | none => ""

/-- `badge.get("liveChatAuthorBadgeRenderer", {}).get("icon", {}).get("iconType", "")`. -/
def badgeIconType (b : BadgeJ) : String :=
  match b.liveChatAuthorBadgeRenderer with
  | none => ""
  | some br =>
    match br.icon with
    | none => ""
    | some ic => ic.iconType.getD ""

/-- The `for badge in badges` loop setting the three role flags. -/
def badgeFlags (badges : List BadgeJ) : Bool × Bool × Bool :=
  badges.foldl
    (fun acc b =>
      let it := badgeIconType b
      if it = "OWNER" then (true, acc.2.1, acc.2.2)
      else if it = "MODERATOR" then (acc.1, true, acc.2.2)
      else if it = "MEMBER" then (acc.1, acc.2.1, true)
      else acc)
    (false, false, false)

/-- The text `_parse_action` reconstructs from a renderer's runs:
`"".join(run.get("text", ...) for run in renderer.get("message", {}).get("runs", []))`. -/
def rendererText (renderer : RendererJ) : String :=
  let message_runs :=
    match renderer.message with
    | none => []
    | some m => m.runs.getD []
  pyJoin (message_runs.map runText)

/-- `renderer.get("authorName", {}).get("simpleText", "Unknown")`. -/
def rendererAuthorName (renderer : RendererJ) : String :=
  match renderer.authorName with
  | none => "Unknown"
  | some an => an.simpleText.getD "Unknown"

/-- The renderer `_parse_action` reads from an action:
`action.get("addChatItemAction")`, then `.get("item", {})`, then
`.get("liveChatTextMessageRenderer")`. -/
def actionRenderer (action : ActionJ) : Option RendererJ :=
  match action.addChatItemAction with
  | none => none
  | some addAction =>
    match addAction.item with
    | none => none
    | some item => item.liveChatTextMessageRenderer

/-- `LiveChatReader._parse_action`: normalize one action into a `Message`,
or `none` if it is not a (nonempty) text message. -/
def parseAction (action : ActionJ) : Option Message :=
  match actionRenderer action with
  | none => none
  | some renderer =>
    let message_text := rendererText renderer
    if message_text = "" then none
    else
      let flags := badgeFlags (renderer.authorBadges.getD [])
      some
        { id := renderer.id.getD ""
          channel_id := renderer.authorExternalChannelId.getD ""
          display_name := rendererAuthorName renderer
          message := message_text
          published_at := renderer.timestampUsec.getD ""
          is_owner := flags.1
          is_moderator := flags.2.1
          is_member := flags.2.2 }

/-! ## `LiveChatReader` state and `poll()` -/

/-- `LiveChatReader` mutable state: the continuation token and the seen-id
set (`_seen_ids`, represented by the list of its elements). -/
structure ReaderState where
  continuation : Option String
  seenIds : List String
deriving DecidableEq

/-- The `for action in actions` loop of `poll()`: parse each action, drop
ids already seen, record fresh ids.  Returns the emitted messages and the
post-insertion seen set. -/
def dedupInsert (seen : List String) (actions : List ActionJ) :
    List Message × List String :=
  actions.foldl
    (fun acc action =>
      match parseAction action with
      | none => acc
      | some msg => if msg.id ∈ acc.2 then acc else (acc.1 ++ [msg], acc.2 ++ [msg.id]))
    ([], seen)

/-- Python `l[-n:]`. -/
def pyLastSlice {α : Type} (l : List α) (n : Nat) : List α :=
  l.drop (l.length - n)

/-- The cap step of `poll()`: `if len(self._seen_ids) > 5000:
self._seen_ids = set(list(self._seen_ids)[-2000:])`.  `enum` is the
enumeration order CPython happens to produce for `list(...)`. -/
def capSeen (seen : List String) (enum : List String) : List String :=
  if seen.length > 5000 then pyLastSlice enum 2000 else seen

/-- `LiveChatReader._update_continuation`'s scan over the continuations
list: first truthy invalidation token, else first truthy timed token. -/
def findCont : List ContJ → Option String
  | [] => none
  | c :: rest =>
    let inv :=
      match c.invalidationContinuationData with
      | none => ""
      | some d => d.continuation.getD ""
    if inv ≠ "" then some inv
    else
      let timed :=
        match c.timedContinuationData with
        | none => ""
        | some d => d.continuation.getD ""
      if timed ≠ "" then some timed else findCont rest

/-- `_update_continuation`: replace the stored token only when a new one is
found, else keep the old one. -/
def updateContinuation (conts : List ContJ) (old : Option String) : Option String :=
  match findCont conts with
  | some c => some c
  | none => old

/-- `_get_polling_interval`'s scan for a truthy `timeoutMs`. -/
def findTimeout : List ContJ → Option Int
  | [] => none
  | c :: rest =>
    let i :=
      match c.invalidationContinuationData with
      | none => 0
      | some d => d.timeoutMs.getD 0
    if i ≠ 0 then some i
    else
      let t :=
        match c.timedContinuationData with
        | none => 0
        | some d => d.timeoutMs.getD 0
      if t ≠ 0 then some t else findTimeout rest

/-- `_get_polling_interval`: seconds, default 5, floored at 1. -/
def getPollingInterval (conts : List ContJ) : ℚ :=
  match findTimeout conts with
  | some ms => max ((ms : ℚ) / 1000) 1
  | none => 5

/-- The successful-exchange body of `poll()`. -/
def pollOnline (st : ReaderState) (resp : ResponseJ) (enum : List String) :
    (List Message × ℚ) × ReaderState :=
  let chat_data := chatDataOf resp
  let parsed := dedupInsert st.seenIds (chat_data.actions.getD [])
  let seen' := capSeen parsed.2 enum
  let cont' := updateContinuation (chat_data.continuations.getD []) st.continuation
  let interval := getPollingInterval (chat_data.continuations.getD [])
  ((parsed.1, interval), { continuation := cont', seenIds := seen' })

/-- `LiveChatReader.poll()`.  The network exchange is an input: `.error`
stands for any `requests` failure or malformed response (both `except`
arms return the same value).  `enum` is the enumeration CPython produces
for `list(self._seen_ids)` should the cap step run. -/
def poll (st : ReaderState) (exch : Except Unit ResponseJ) (enum : List String) :
    (List Message × ℚ) × ReaderState :=
  match st.continuation with
  | none => (([], 5), st)
  | some _ =>
    match exch with
    | .error _ => (([], 5), st)
    | .ok resp => pollOnline st resp enum

/-! ## `polls.parse_poll_command` -/

/-- The regex scan `re.findall(r'"([^"]+)"', text)` expressed on the
segments between quote characters: given `[s₁, …, sₙ]` where `sᵢ` is the
text between the `i`-th and `(i+1)`-th quote (the last segment trailing
the final quote), a match at quote `i` captures `sᵢ` when it is nonempty
and a closing quote exists, then resumes after the closing quote. -/
def quotedSegs : List (List Char) → List (List Char)
  | [] => []
  | [_] => []
  | s :: s' :: rest => if s = [] then quotedSegs (s' :: rest) else s :: quotedSegs rest

/-- `re.findall(r'"([^"]+)"', text)`. -/
def findQuoted (text : String) : List String :=
  (quotedSegs ((listSplit (· = '"') text.data).tail)).map String.mk

/-- `polls.parse_poll_command`. -/
def parse_poll_command (text : String) : Option String × Option (List String) :=
  let parts := findQuoted text
  if parts.length < 3 then (none, none)
  else
    let question := parts.headD ""
    let options := parts.tail
    if options.length < 2 then (none, none)
    else
      let options := if options.length > 4 then options.take 4 else options
      (some question, some options)

/-! ## `commands.CommandRouter` -/

/-- One record of the `commands.json` array, fields read with `.get`. -/
structure CmdDef where
  action : Option String
  reply : Option String
  aliases : Option (List String)
deriving DecidableEq

/-- `commands._load_commands`: `none` stands for a missing file or invalid
JSON (both return an empty table). -/
def loadCommands : Option (List CmdDef) → List (String × String)
  | none => []
  | some cmds =>
    cmds.foldl
      (fun lookup cmd =>
        let reply := cmd.reply.getD ""
        let action := pyStrip (pyLower (cmd.action.getD ""))
        let lookup1 := if action ≠ "" then dictSet lookup action reply else lookup
        (cmd.aliases.getD []).foldl
          (fun lk al =>
            let alLower := pyStrip (pyLower al)
            if alLower ≠ "" then dictSet lk alLower reply else lk)
          lookup1)
      []

/-- `CommandRouter` state: the trigger table (`_lookup`), the cooldown
table (`_cooldowns`), the prefix and the cooldown length in seconds. -/
structure RouterState where
  lookup : List (String × String)
  cooldowns : List (String × Int)
  prefixStr : String
  cooldownSeconds : Int
deriving DecidableEq

/-- `CommandRouter._is_on_cooldown` at wall-clock time `now`. -/
def isOnCooldown (r : RouterState) (now : Int) (key : String) : Bool :=
  match List.lookup key r.cooldowns with
  | none => false
  | some last_used => now - last_used < r.cooldownSeconds

/-- The trigger key `match` extracts from a message text:
first whitespace token of `text.strip().lower()`, or `""`. -/
def commandWordOf (text : String) : String :=
  (pySplitWS (pyLower (pyStrip text))).headD ""

/-- `CommandRouter.match` at wall-clock time `now` (`time.time()`). -/
def matchCmd (r : RouterState) (now : Int) (text : String) :
    Option String × RouterState :=
  let text_clean := pyLower (pyStrip text)
  if ¬ pyStartsWith text_clean r.prefixStr then (none, r)
  else
    let command_word := (pySplitWS text_clean).headD ""
    match List.lookup command_word r.lookup with
    | none => (none, r)
    | some reply =>
      if isOnCooldown r now command_word then (none, r)
      else (some reply, { r with cooldowns := dictSet r.cooldowns command_word now })

/-- `CommandRouter.reload`: rebuild `_lookup` from the current backing
definitions (`defs` is the file content at the time of the call). -/
def reloadRouter (r : RouterState) (defs : Option (List CmdDef)) : RouterState :=
  { r with lookup := loadCommands defs }

/-! ## `welcome.WelcomeTracker` and `storage.JsonStore` -/

/-- `WelcomeTracker` state.  `store = none` means no backing file was
configured (`chat_id=None`); `store = some f` is the JSON array currently
on disk. -/
structure TrackerState where
  seen : List String
  botChannelId : Option String
  ownerChannelId : Option String
  store : Option (List String)
deriving DecidableEq

/-- `JsonStore.save_set`: serialize the set as a sorted JSON array. -/
def saveSet (s : List String) : List String := pySorted s

/-- `JsonStore.load_set`: read the JSON array back as a set. -/
def loadSet (l : List String) : List String := l.foldl pySetAdd []

/-- `WelcomeTracker._persist`: full rewrite of the backing store, if any. -/
def persistT (st : TrackerState) : TrackerState :=
  match st.store with
  | none => st
  | some _ => { st with store := some (saveSet st.seen) }

/-- `WelcomeTracker.is_new`. -/
def isNew (st : TrackerState) (channel_id : String) : Bool × TrackerState :=
  if some channel_id = st.botChannelId ∨ some channel_id = st.ownerChannelId then
    (false, st)
  else if channel_id ∈ st.seen then (false, st)
  else (true, persistT { st with seen := pySetAdd st.seen channel_id })

/-- The `for msg in messages` loop of `seed_from_history`, threading the
`new_ids` counter. -/
def seedAux : TrackerState × Nat → List Message → TrackerState × Nat
  | acc, [] => acc
  | (st, n), m :: rest =>
    if m.channel_id ≠ "" ∧ m.channel_id ∉ st.seen then
      seedAux ({ st with seen := pySetAdd st.seen m.channel_id }, n + 1) rest
    else seedAux (st, n) rest

/-- `WelcomeTracker.seed_from_history`. -/
def seedFromHistory (st : TrackerState) (msgs : List Message) : TrackerState :=
  let r := seedAux (st, 0) msgs
  if r.2 > 0 then persistT r.1 else r.1

/-- `WelcomeTracker.get_welcome_message` with the default config template
`"Welcome to the stream, {username}! 🎉"` (the `KeyError` fallback renders
the same phrase). -/
def getWelcomeMessage (display_name : String) : String :=
  "Welcome to the stream, " ++ display_name ++ "! 🎉"

/-- `WelcomeTracker.set_bot_channel_id`. -/
def setBotChannelId (st : TrackerState) (channel_id : String) : TrackerState :=
  persistT { st with botChannelId := some channel_id, seen := pySetAdd st.seen channel_id }

/-- `WelcomeTracker.set_owner_channel_id`. -/
def setOwnerChannelId (st : TrackerState) (channel_id : String) : TrackerState :=
  persistT { st with ownerChannelId := some channel_id, seen := pySetAdd st.seen channel_id }

/-- `WelcomeTracker.__init__` with a `chat_id` whose store file holds
`file`: the seen set is reconstructed via `load_set`. -/
def trackerFromStore (file : List String) : TrackerState :=
  { seen := loadSet file, botChannelId := none, ownerChannelId := none,
    store := some file }

/-! ## `bot.StrykerBot._poll_loop` / `_process_message` -/

/-- `config.BOT_PREFIX` default. -/
def botPrefixCfg : String := "/"

/-- `StrykerBot` state visible to the loop, plus the observable outputs:
texts passed to `send_message` and polls passed to `create_poll`. -/
structure BotState where
  initialFetch : Bool
  tracker : TrackerState
  router : RouterState
  sent : List String
  pollsCreated : List (String × List String)
deriving DecidableEq

/-- Reply text of the `/reload` confirmation. -/
def reloadedMsg (r : RouterState) : String :=
  "✅ Commands reloaded! (" ++ toString r.lookup.length ++ " triggers)"

/-- `StrykerBot._process_message`, at wall-clock time `now`; `cmdDefs` is
the current content of the commands definitions file (used by `/reload`). -/
def processMessage (cmdDefs : Option (List CmdDef)) (st : BotState) (now : Int)
    (m : Message) : BotState :=
  -- Step 1: welcome first-time chatters
  let pr := isNew st.tracker m.channel_id
  let st1 :=
    let stT := { st with tracker := pr.2 }
    if pr.1 then { stT with sent := stT.sent ++ [getWelcomeMessage m.display_name] }
    else stT
  -- Step 2: slash commands (with cooldown); `if reply:` is Python truthiness
  let mr := matchCmd st1.router now m.message
  let st2 := { st1 with router := mr.2 }
  if pyTruthyOptStr mr.1 then { st2 with sent := st2.sent ++ [mr.1.getD ""] }
  else
    -- Step 3: poll command (owner/mod only)
    let text_lower := pyLower (pyStrip m.message)
    if pyStartsWith text_lower (botPrefixCfg ++ "poll") then
      if m.is_owner || m.is_moderator then
        let qo := parse_poll_command m.message
        match qo.1, qo.2 with
        | some q, some opts =>
          if q ≠ "" ∧ opts ≠ [] then
            { st2 with pollsCreated := st2.pollsCreated ++ [(q, opts)] }
          else
            { st2 with sent := st2.sent ++
                ["❌ Usage: /poll \"Question?\" \"Option 1\" \"Option 2\""] }
        | _, _ =>
          { st2 with sent := st2.sent ++
              ["❌ Usage: /poll \"Question?\" \"Option 1\" \"Option 2\""] }
      else
        { st2 with sent := st2.sent ++
            ["⚠️ Only the stream owner or moderators can create polls."] }
    else
      -- Step 4: reload command (owner only)
      if text_lower = botPrefixCfg ++ "reload" && m.is_owner then
        let r' := reloadRouter st2.router cmdDefs
        { st2 with router := r', sent := st2.sent ++ [reloadedMsg r'] }
      else st2

/-- One non-seeding cycle's message loop: `for msg in messages:
self._process_message(msg)`.  Each message is paired with the wall-clock
time at which it is processed. -/
def processBatch (cmdDefs : Option (List CmdDef)) (st : BotState)
    (batch : List (Message × Int)) : BotState :=
  batch.foldl (fun s p => processMessage cmdDefs s p.2 p.1) st

/-- One iteration of `_poll_loop` after `poll()` returned `batch`. -/
def pollCycle (cmdDefs : Option (List CmdDef)) (st : BotState)
    (batch : List (Message × Int)) : BotState :=
  if st.initialFetch then
    { st with tracker := seedFromHistory st.tracker (batch.map Prod.fst),
              initialFetch := false }
  else processBatch cmdDefs st batch

/-- `_poll_loop` over a finite sequence of poll batches. -/
def runLoop (cmdDefs : Option (List CmdDef)) (st : BotState) :
    List (List (Message × Int)) → BotState
  | [] => st
  | b :: bs => runLoop cmdDefs (pollCycle cmdDefs st b) bs

/-! ## Helper lemmas -/

theorem lookup_dictSet_self {β : Type} (l : List (String × β)) (k : String) (v : β) :
    List.lookup k (dictSet l k v) = some v := by
  induction l with
  | nil => simp [dictSet, List.lookup]
  | cons p rest ih =>
    obtain ⟨k', v'⟩ := p
    by_cases h : k' = k
    · simp [dictSet, h, List.lookup]
    · simp only [dictSet, if_neg h, List.lookup]
      have : (k == k') = false := by
        simp only [beq_eq_false_iff_ne, ne_eq]
        exact fun hk => h hk.symm
      simp [this, ih]

theorem mem_pySetAdd (s : List String) (x y : String) :
    y ∈ pySetAdd s x ↔ y = x ∨ y ∈ s := by
  unfold pySetAdd
  by_cases h : x ∈ s
  · simp only [if_pos h]
    constructor
    · exact fun hy => Or.inr hy
    · rintro (rfl | hy) <;> [exact h; exact hy]
  · simp [if_neg h, List.mem_append, or_comm]

theorem mem_insertSorted (x y : String) (l : List String) :
    y ∈ insertSorted x l ↔ y = x ∨ y ∈ l := by
  induction l with
  | nil => simp [insertSorted]
  | cons a as ih =>
    unfold insertSorted
    by_cases h : x.data ≤ a.data
    · simp [if_pos h]
    · simp only [if_neg h, List.mem_cons, ih]
      tauto

theorem mem_pySorted (l : List String) (x : String) :
    x ∈ pySorted l ↔ x ∈ l := by
  unfold pySorted
  induction l with
  | nil => simp
  | cons a as ih => simp [List.foldr, mem_insertSorted, ih]

theorem mem_foldl_pySetAdd (l acc : List String) (x : String) :
    x ∈ l.foldl pySetAdd acc ↔ x ∈ acc ∨ x ∈ l := by
  induction l generalizing acc with
  | nil => simp
  | cons a as ih => simp [List.foldl, ih, mem_pySetAdd]; tauto

theorem mem_loadSet (l : List String) (x : String) :
    x ∈ loadSet l ↔ x ∈ l := by
  unfold loadSet
  rw [mem_foldl_pySetAdd]
  simp

theorem mem_loadSet_saveSet (s : List String) (x : String) :
    x ∈ loadSet (saveSet s) ↔ x ∈ s := by
  rw [mem_loadSet]
  exact mem_pySorted s x

theorem persistT_seen (st : TrackerState) : (persistT st).seen = st.seen := by
  unfold persistT
  cases st.store <;> rfl

theorem persistT_bot (st : TrackerState) :
    (persistT st).botChannelId = st.botChannelId := by
  unfold persistT
  cases st.store <;> rfl

theorem persistT_owner (st : TrackerState) :
    (persistT st).ownerChannelId = st.ownerChannelId := by
  unfold persistT
  cases st.store <;> rfl

/-! ## C10 — `poll()` with no continuation handle -/

/-- C10: if `connect()` has not stored a continuation handle, `poll()`
returns the empty message list and a 5-second wait, for *any* exchange
outcome (no network exchange is consulted) and with the reader state
unchanged. -/
theorem poll_without_handle (st : ReaderState) (exch : Except Unit ResponseJ)
    (enum : List String) (h : st.continuation = none) :
    poll st exch enum = (([], 5), st) := by
  unfold poll
  rw [h]

theorem poll_without_handle_witness :
    poll { continuation := none, seenIds := ["m"] } (Except.error ()) [] =
        (([], 5), { continuation := none, seenIds := ["m"] }) ∧
      poll { continuation := none, seenIds := ["m"] }
          (Except.ok { continuationContents := none }) ["z"] =
        (([], 5), { continuation := none, seenIds := ["m"] }) :=
  ⟨poll_without_handle _ _ _ rfl, poll_without_handle _ _ _ rfl⟩

/-! ## C8 — `poll()` absorbs exchange failures -/

/-- C8: on any network or malformed-response failure during the exchange,
`poll()` returns the empty message sequence and the 5-second fallback wait,
leaving the reader state unchanged (it never raises — the embedding is a
total function). -/
theorem poll_absorbs_failure (st : ReaderState) (tok : String)
    (exch : Except Unit ResponseJ) (enum : List String)
    (hc : st.continuation = some tok) (he : exch = Except.error ()) :
    poll st exch enum = (([], 5), st) := by
  unfold poll
  rw [hc, he]

theorem poll_absorbs_failure_witness :
    poll { continuation := some "tok", seenIds := ["m"] } (Except.error ()) [] =
      (([], 5), { continuation := some "tok", seenIds := ["m"] }) :=
  poll_absorbs_failure _ "tok" _ _ rfl rfl

/-! ## C9 — `reload()` frame conditions -/

/-- C9: `reload()` wholesale replaces the trigger table and changes nothing
else: the cooldown table, prefix and cooldown length are untouched, so
every persisting trigger key keeps its in-flight timer (both the raw
timestamps and the `_is_on_cooldown` verdicts are unchanged). -/
theorem reload_replaces_table_preserves_cooldowns (r : RouterState)
    (defs : Option (List CmdDef)) :
    (reloadRouter r defs).lookup = loadCommands defs ∧
      (reloadRouter r defs).cooldowns = r.cooldowns ∧
      (reloadRouter r defs).prefixStr = r.prefixStr ∧
      (reloadRouter r defs).cooldownSeconds = r.cooldownSeconds ∧
      (∀ k, List.lookup k (reloadRouter r defs).cooldowns =
        List.lookup k r.cooldowns) ∧
      (∀ now k, isOnCooldown (reloadRouter r defs) now k = isOnCooldown r now k) :=
  ⟨rfl, rfl, rfl, rfl, fun _ => rfl, fun _ _ => rfl⟩

/-! ## C7 — `parse_poll_command` -/

/-- C7: `parse_poll_command` extracts the double-quoted substrings in
order; fewer than 3 yields `(none, none)`, otherwise the first is the
question and the remainder the options, truncated to the first 4; every
successful parse has between 2 and 4 options. -/
theorem parse_poll_command_spec (text : String) :
    ((findQuoted text).length < 3 → parse_poll_command text = (none, none)) ∧
      (3 ≤ (findQuoted text).length →
        parse_poll_command text =
          (some ((findQuoted text).headD ""),
            some ((findQuoted text).tail.take 4))) ∧
      (∀ q opts, parse_poll_command text = (some q, some opts) →
        2 ≤ opts.length ∧ opts.length ≤ 4) := by
  unfold parse_poll_command
  by_cases h : (findQuoted text).length < 3
  · simp only [if_pos h]
    refine ⟨fun _ => trivial, fun h3 => absurd h (by omega), ?_⟩
    intro q opts hqo
    simp at hqo
  · simp only [if_neg h]
    have h3 : 3 ≤ (findQuoted text).length := by omega
    have htl : (findQuoted text).tail.length = (findQuoted text).length - 1 :=
      List.length_tail _
    have h2 : ¬ (findQuoted text).tail.length < 2 := by omega
    simp only [if_neg h2]
    have hopts : (if (findQuoted text).tail.length > 4
        then (findQuoted text).tail.take 4 else (findQuoted text).tail) =
        (findQuoted text).tail.take 4 := by
      by_cases h4 : (findQuoted text).tail.length > 4
      · simp [if_pos h4]
      · rw [if_neg h4, List.take_of_length_le (by omega)]
    rw [hopts]
    refine ⟨fun hlt => absurd hlt h, fun _ => rfl, ?_⟩
    intro q opts hqo
    have h5 : (findQuoted text).tail.take 4 = opts := by
      simpa using congrArg (fun p => p.2) hqo
    subst h5
    rw [List.length_take]
    omega

theorem parse_poll_command_spec_witness :
    parse_poll_command "/poll \"Q?\" \"A\" \"B\" \"C\" \"D\" \"E\"" =
        (some "Q?", some ["A", "B", "C", "D"]) ∧
      parse_poll_command "/poll \"Q?\" \"A\"" = (none, none) := by
  constructor
  · have h := (parse_poll_command_spec "/poll \"Q?\" \"A\" \"B\" \"C\" \"D\" \"E\"").2.1
      (by decide)
    rw [h]
    decide
  · exact (parse_poll_command_spec "/poll \"Q?\" \"A\"").1 (by decide)

/-- Unfolded form of `matchCmd` (proof convenience). -/
theorem matchCmd_def (r : RouterState) (now : Int) (text : String) :
    matchCmd r now text =
      if pyStartsWith (pyLower (pyStrip text)) r.prefixStr then
        match List.lookup (commandWordOf text) r.lookup with
        | none => (none, r)
        | some reply =>
          if isOnCooldown r now (commandWordOf text) then (none, r)
          else (some reply,
            { r with cooldowns := dictSet r.cooldowns (commandWordOf text) now })
      else (none, r) := by
  unfold matchCmd commandWordOf
  by_cases hp : pyStartsWith (pyLower (pyStrip text)) r.prefixStr <;> simp [hp]

/-- A `match()` that returns `none` changes no router state. -/
theorem matchCmd_none_frame (r : RouterState) (now : Int) (text : String)
    (h : (matchCmd r now text).1 = none) : (matchCmd r now text).2 = r := by
  rw [matchCmd_def] at h ⊢
  by_cases hp : pyStartsWith (pyLower (pyStrip text)) r.prefixStr
  · rw [if_pos hp] at h ⊢
    cases hl : List.lookup (commandWordOf text) r.lookup with
    | none => simp [hl]
    | some rep0 =>
      simp only [hl] at h ⊢
      by_cases hcd : isOnCooldown r now (commandWordOf text)
      · simp [hcd]
      · simp [hcd] at h
  · rw [if_neg hp]

/-- A `match()` inside the cooldown window of its trigger key returns
`none` with the router unchanged. -/
theorem matchCmd_cooldown_none (r : RouterState) (now : Int) (text : String)
    (rep : String) (t : Int)
    (h1 : List.lookup (commandWordOf text) r.lookup = some rep)
    (h2 : List.lookup (commandWordOf text) r.cooldowns = some t)
    (h3 : now - t < r.cooldownSeconds) :
    matchCmd r now text = (none, r) := by
  rw [matchCmd_def]
  by_cases hp : pyStartsWith (pyLower (pyStrip text)) r.prefixStr
  · rw [if_pos hp]
    simp only [h1]
    have hcd : isOnCooldown r now (commandWordOf text) = true := by
      unfold isOnCooldown
      rw [h2]
      exact decide_eq_true h3
    rw [if_pos hcd]
  · rw [if_neg hp]

/-- A successful `match()` returns the looked-up reply and its only state
change is stamping `now` on the trigger key. -/
theorem matchCmd_success (r : RouterState) (now : Int) (text : String)
    (rep : String) (h : (matchCmd r now text).1 = some rep) :
    pyStartsWith (pyLower (pyStrip text)) r.prefixStr = true ∧
      List.lookup (commandWordOf text) r.lookup = some rep ∧
      isOnCooldown r now (commandWordOf text) = false ∧
      (matchCmd r now text).2 =
        { r with cooldowns := dictSet r.cooldowns (commandWordOf text) now } := by
  rw [matchCmd_def] at h ⊢
  by_cases hp : pyStartsWith (pyLower (pyStrip text)) r.prefixStr
  · rw [if_pos hp] at h ⊢
    cases hl : List.lookup (commandWordOf text) r.lookup with
    | none => simp [hl] at h
    | some rep0 =>
      simp only [hl] at h ⊢
      by_cases hcd : isOnCooldown r now (commandWordOf text)
      · simp [hcd] at h
      · simp only [if_neg hcd] at h ⊢
        have : rep0 = rep := by simpa using h
        subst this
        exact ⟨hp, by trivial, by simpa using hcd, by trivial⟩
  · rw [if_neg hp] at h
    simp at h

/-- After a successful match, a second match of the same text at least the
cooldown later succeeds again with the same reply. -/
theorem matchCmd_success_again (r : RouterState) (now now₂ : Int) (text : String)
    (rep : String) (h : (matchCmd r now text).1 = some rep)
    (hle : r.cooldownSeconds ≤ now₂ - now) :
    (matchCmd (matchCmd r now text).2 now₂ text).1 = some rep := by
  obtain ⟨hp, hl, _, hst⟩ := matchCmd_success r now text rep h
  rw [hst, matchCmd_def]
  rw [if_pos hp]
  simp only [hl]
  have hcd2 : isOnCooldown
      { r with cooldowns := dictSet r.cooldowns (commandWordOf text) now }
      now₂ (commandWordOf text) = false := by
    unfold isOnCooldown
    simp only [lookup_dictSet_self]
    simp only [decide_eq_false_iff_not]
    omega
  rw [if_neg (by simp [hcd2])]

/-! ## C4 — per-trigger cooldown gating in `CommandRouter.match` -/

/-- C4: a `match()` made less than `C` seconds after the last successful
match of the same trigger key returns `none` and leaves all router state
unchanged; the last-used stamp is written exactly on a successful match;
and two matches of the same trigger spaced at least `C` apart both return
the reply. -/
theorem command_cooldown_gating (r : RouterState) (text : String) (now : Int) :
    ((matchCmd r now text).1 = none → (matchCmd r now text).2 = r) ∧
      (∀ rep t,
        List.lookup (commandWordOf text) r.lookup = some rep →
        List.lookup (commandWordOf text) r.cooldowns = some t →
        now - t < r.cooldownSeconds →
        matchCmd r now text = (none, r)) ∧
      (∀ rep, (matchCmd r now text).1 = some rep →
        List.lookup (commandWordOf text) r.lookup = some rep ∧
        (matchCmd r now text).2 =
          { r with cooldowns := dictSet r.cooldowns (commandWordOf text) now }) ∧
      (∀ rep now₂, (matchCmd r now text).1 = some rep →
        r.cooldownSeconds ≤ now₂ - now →
        (matchCmd (matchCmd r now text).2 now₂ text).1 = some rep) :=
  ⟨matchCmd_none_frame r now text,
    fun rep t h1 h2 h3 => matchCmd_cooldown_none r now text rep t h1 h2 h3,
    fun rep h => ⟨(matchCmd_success r now text rep h).2.1,
      (matchCmd_success r now text rep h).2.2.2⟩,
    fun rep now₂ h hle => matchCmd_success_again r now now₂ text rep h hle⟩

/-- Concrete router used to witness C4. -/
def c4Router : RouterState :=
  { lookup := [("/help", "Here is help")], cooldowns := [],
    prefixStr := "/", cooldownSeconds := 30 }

theorem command_cooldown_gating_witness :
    (matchCmd c4Router 100 "/help").1 = some "Here is help" ∧
      matchCmd ((matchCmd c4Router 100 "/help").2) 110 "/help" =
        (none, (matchCmd c4Router 100 "/help").2) ∧
      (matchCmd ((matchCmd c4Router 100 "/help").2) 130 "/help").1 =
        some "Here is help" := by
  have h1 : (matchCmd c4Router 100 "/help").1 = some "Here is help" := by decide
  refine ⟨h1, ?_, ?_⟩
  · exact (command_cooldown_gating ((matchCmd c4Router 100 "/help").2) "/help" 110).2.1
      "Here is help" 100 (by decide) (by decide) (by decide)
  · exact (command_cooldown_gating c4Router "/help" 100).2.2.2
      "Here is help" 130 h1 (by decide)

/-! ## Welcome-tracker lemmas -/

theorem isNew_mem_false (st : TrackerState) (A : String) (hA : A ∈ st.seen) :
    isNew st A = (false, st) := by
  unfold isNew
  by_cases h : some A = st.botChannelId ∨ some A = st.ownerChannelId
  · rw [if_pos h]
  · rw [if_neg h, if_pos hA]

theorem isNew_seen_mono (st : TrackerState) (A B : String) (hx : A ∈ st.seen) :
    A ∈ (isNew st B).2.seen := by
  unfold isNew
  by_cases h1 : some B = st.botChannelId ∨ some B = st.ownerChannelId
  · rw [if_pos h1]
    exact hx
  · rw [if_neg h1]
    by_cases h2 : B ∈ st.seen
    · rw [if_pos h2]
      exact hx
    · rw [if_neg h2]
      show A ∈ (persistT _).seen
      rw [persistT_seen]
      exact (mem_pySetAdd _ _ _).2 (Or.inr hx)

theorem seedAux_seen_mono (msgs : List Message) (st : TrackerState) (n : Nat)
    (x : String) (hx : x ∈ st.seen) : x ∈ (seedAux (st, n) msgs).1.seen := by
  induction msgs generalizing st n with
  | nil => simpa [seedAux]
  | cons m rest ih =>
    unfold seedAux
    by_cases h : m.channel_id ≠ "" ∧ m.channel_id ∉ st.seen
    · rw [if_pos h]
      exact ih _ _ ((mem_pySetAdd _ _ _).2 (Or.inr hx))
    · rw [if_neg h]
      exact ih _ _ hx

theorem seedAux_mem_batch (msgs : List Message) (st : TrackerState) (n : Nat)
    (A : String) (hA : A ≠ "") (hm : A ∈ msgs.map Message.channel_id) :
    A ∈ (seedAux (st, n) msgs).1.seen := by
  induction msgs generalizing st n with
  | nil => simp at hm
  | cons m rest ih =>
    rw [List.map_cons, List.mem_cons] at hm
    unfold seedAux
    by_cases h : m.channel_id ≠ "" ∧ m.channel_id ∉ st.seen
    · rw [if_pos h]
      rcases hm with heq | hrest
      · exact seedAux_seen_mono _ _ _ _ ((mem_pySetAdd _ _ _).2 (Or.inl heq))
      · exact ih _ _ hrest
    · rw [if_neg h]
      rcases hm with heq | hrest
      · subst heq
        have hmem : m.channel_id ∈ st.seen := by tauto
        exact seedAux_seen_mono _ _ _ _ hmem
      · exact ih _ _ hrest

theorem seedFromHistory_seen_mono (st : TrackerState) (msgs : List Message)
    (x : String) (hx : x ∈ st.seen) : x ∈ (seedFromHistory st msgs).seen := by
  unfold seedFromHistory
  by_cases h : (seedAux (st, 0) msgs).2 > 0
  · rw [if_pos h, persistT_seen]
    exact seedAux_seen_mono _ _ _ _ hx
  · rw [if_neg h]
    exact seedAux_seen_mono _ _ _ _ hx

theorem seedFromHistory_mem_batch (st : TrackerState) (msgs : List Message)
    (A : String) (hA : A ≠ "") (hm : A ∈ msgs.map Message.channel_id) :
    A ∈ (seedFromHistory st msgs).seen := by
  unfold seedFromHistory
  by_cases h : (seedAux (st, 0) msgs).2 > 0
  · rw [if_pos h, persistT_seen]
    exact seedAux_mem_batch _ _ _ _ hA hm
  · rw [if_neg h]
    exact seedAux_mem_batch _ _ _ _ hA hm

/-! ## C6 — seeding suppresses later novelty (amended) -/

/-- C6 (amended): for every *non-empty* author id present in the seeded
batch, any later `is_new` call with that id returns false — membership is
established by `seed_from_history` and preserved by every further
`is_new`/`seed_from_history` call.  (`seed_from_history` skips falsy ids,
so the empty author id is exempt — see the counterexample.) -/
theorem seed_blocks_is_new (st : TrackerState) (msgs : List Message) (A : String)
    (hA : A ≠ "") (hm : A ∈ msgs.map Message.channel_id) :
    A ∈ (seedFromHistory st msgs).seen ∧
      (isNew (seedFromHistory st msgs) A).1 = false ∧
      (∀ st' : TrackerState, A ∈ st'.seen → isNew st' A = (false, st')) ∧
      (∀ (st' : TrackerState) (B : String), A ∈ st'.seen →
        A ∈ (isNew st' B).2.seen) ∧
      (∀ (st' : TrackerState) (ms : List Message), A ∈ st'.seen →
        A ∈ (seedFromHistory st' ms).seen) := by
  have hmem := seedFromHistory_mem_batch st msgs A hA hm
  refine ⟨hmem, ?_, ?_, ?_, ?_⟩
  · rw [isNew_mem_false _ _ hmem]
  · exact fun st' h => isNew_mem_false st' A h
  · exact fun st' B h => isNew_seen_mono st' A B h
  · exact fun st' ms h => seedFromHistory_seen_mono st' ms A h

/-- C6 counterexample: a batch message whose `channel_id` is the empty
string is skipped by `seed_from_history` (Python truthiness), yet a later
`is_new("")` returns true — so the claim fails for the author id `""`
present in the batch. -/
theorem seed_blocks_is_new_counterexample :
    (({ id := "m1", channel_id := "", display_name := "Ghost", message := "hi",
        published_at := "", is_owner := false, is_moderator := false,
        is_member := false } : Message)).channel_id = "" ∧
      (isNew
        (seedFromHistory
          { seen := [], botChannelId := none, ownerChannelId := none, store := none }
          [{ id := "m1", channel_id := "", display_name := "Ghost", message := "hi",
             published_at := "", is_owner := false, is_moderator := false,
             is_member := false }])
        "").1 = true := by
  decide

theorem seed_blocks_is_new_witness :
    (isNew
      (seedFromHistory
        { seen := [], botChannelId := none, ownerChannelId := none, store := none }
        [{ id := "m1", channel_id := "alice", display_name := "Alice", message := "hi",
           published_at := "", is_owner := false, is_moderator := false,
           is_member := false }])
      "alice").1 = false :=
  (seed_blocks_is_new
    { seen := [], botChannelId := none, ownerChannelId := none, store := none }
    [{ id := "m1", channel_id := "alice", display_name := "Alice", message := "hi",
       published_at := "", is_owner := false, is_moderator := false,
       is_member := false }]
    "alice" (by decide) (by decide)).2.1

/-! ## C5 — first-time novelty with persistence round-trip -/

/-- C5: for an author id distinct from the bot/owner ids and not yet
recorded, `is_new` returns true once and false on every subsequent call;
the mutation is persisted via `save_set`, `save_set`/`load_set` round-trip
the set of ids exactly, and a tracker reconstructed from the persisted
store still answers false. -/
theorem isNew_first_true_persisted (st : TrackerState) (A : String)
    (f : List String) (hstore : st.store = some f)
    (hbot : some A ≠ st.botChannelId) (howner : some A ≠ st.ownerChannelId)
    (hnew : A ∉ st.seen) :
    (isNew st A).1 = true ∧
      isNew (isNew st A).2 A = (false, (isNew st A).2) ∧
      (isNew st A).2.store = some (saveSet (pySetAdd st.seen A)) ∧
      (∀ (l : List String) (x : String), x ∈ loadSet (saveSet l) ↔ x ∈ l) ∧
      (∀ f', (isNew st A).2.store = some f' →
        (isNew (trackerFromStore f') A).1 = false) := by
  have hcond : ¬ (some A = st.botChannelId ∨ some A = st.ownerChannelId) := by
    tauto
  have hstep : isNew st A = (true, persistT { st with seen := pySetAdd st.seen A }) := by
    unfold isNew
    rw [if_neg hcond, if_neg hnew]
  have hseen1 : (isNew st A).2.seen = pySetAdd st.seen A := by
    rw [hstep, persistT_seen]
  have hstore1 : (isNew st A).2.store = some (saveSet (pySetAdd st.seen A)) := by
    rw [hstep]
    show (persistT _).store = _
    unfold persistT
    have : ({ st with seen := pySetAdd st.seen A } : TrackerState).store = some f :=
      hstore
    rw [this]
  have hmemA : A ∈ (isNew st A).2.seen := by
    rw [hseen1]
    exact (mem_pySetAdd _ _ _).2 (Or.inl rfl)
  refine ⟨by rw [hstep], ?_, hstore1, fun l x => mem_loadSet_saveSet l x, ?_⟩
  · exact isNew_mem_false _ _ hmemA
  · intro f' hf'
    rw [hstore1] at hf'
    have hf'' : f' = saveSet (pySetAdd st.seen A) := by
      exact (Option.some.injEq _ _ ▸ hf').symm ▸ rfl
    subst hf''
    have hmem' : A ∈ (trackerFromStore (saveSet (pySetAdd st.seen A))).seen := by
      show A ∈ loadSet (saveSet (pySetAdd st.seen A))
      rw [mem_loadSet_saveSet]
      exact (mem_pySetAdd _ _ _).2 (Or.inl rfl)
    rw [isNew_mem_false _ _ hmem']

theorem isNew_first_true_persisted_witness :
    (isNew { seen := [], botChannelId := none, ownerChannelId := none,
             store := some [] } "alice").1 = true ∧
      (isNew
        (isNew { seen := [], botChannelId := none, ownerChannelId := none,
                 store := some [] } "alice").2 "alice").1 = false ∧
      (isNew (trackerFromStore ["alice"]) "alice").1 = false := by
  have h := isNew_first_true_persisted
    { seen := [], botChannelId := none, ownerChannelId := none, store := some [] }
    "alice" [] rfl (by decide) (by decide) (by decide)
  refine ⟨h.1, ?_, ?_⟩
  · rw [h.2.1]
  · have := h.2.2.2.2 ["alice"] (by decide)
    exact this

/-! ## C3 — which events `_parse_action` skips (amended) -/

/-- C3 (amended): `_parse_action` skips an event exactly when the
chat-addition renderer is structurally absent or the reconstructed text is
empty.  Events missing the id, author id, or author name are *not*
skipped: the emitted `Message` carries the defaults `""` / `""` /
`"Unknown"` for those fields. -/
theorem parseAction_skip_iff (a : ActionJ) :
    (parseAction a = none ↔
      actionRenderer a = none ∨
        ∃ renderer, actionRenderer a = some renderer ∧
          rendererText renderer = "") ∧
      (∀ m, parseAction a = some m →
        ∃ renderer, actionRenderer a = some renderer ∧
          rendererText renderer ≠ "" ∧
          m.id = renderer.id.getD "" ∧
          m.channel_id = renderer.authorExternalChannelId.getD "" ∧
          m.display_name = rendererAuthorName renderer ∧
          m.message = rendererText renderer) := by
  unfold parseAction
  cases h : actionRenderer a with
  | none =>
    refine ⟨⟨fun _ => Or.inl rfl, fun _ => rfl⟩, ?_⟩
    intro m hm
    cases hm
  | some renderer =>
    by_cases ht : rendererText renderer = ""
    · simp only [ht, if_pos rfl]
      refine ⟨⟨fun _ => Or.inr ⟨renderer, rfl, ht⟩, fun _ => rfl⟩, ?_⟩
      intro m hm
      simp at hm
    · simp only [if_neg ht]
      refine ⟨⟨fun hc => absurd hc (by simp), fun hor => ?_⟩, ?_⟩
      · rcases hor with h0 | ⟨r', hr', ht'⟩
        · cases h0
        · have : r' = renderer := by
            simpa using hr'.symm
          subst this
          exact absurd ht' ht
      · intro m hm
        have hm2 := Option.some.inj hm
        subst hm2
        exact ⟨renderer, rfl, ht, rfl, rfl, rfl, rfl⟩

/-- Renderer of the C3 counterexample: a text message whose `id`,
`authorExternalChannelId` and `authorName` fields are all absent. -/
def c3Rend : RendererJ :=
  { message := some { runs := some [{ text := some "hello", emoji := none }] },
    authorName := none, authorExternalChannelId := none, id := none,
    timestampUsec := none, authorBadges := none }

/-- The C3 counterexample event. -/
def c3Action : ActionJ :=
  { addChatItemAction :=
      some { item := some { liveChatTextMessageRenderer := some c3Rend } } }

/-- Chat-continuation block containing only the C3 counterexample event. -/
def c3LC : LiveChatContinuationJ :=
  { actions := some [c3Action], continuations := none }

/-- A `get_live_chat` response containing only the C3 counterexample event. -/
def c3Resp : ResponseJ :=
  { continuationContents := some { liveChatContinuation := some c3LC } }

/-- C3 counterexample: an event missing the required `id`, author id and
author name fields is *not* skipped — `poll()` emits a `Message` built
from it, with defaulted fields. -/
theorem parseAction_skip_counterexample :
    c3Rend.id = none ∧ c3Rend.authorExternalChannelId = none ∧
      c3Rend.authorName = none ∧
      (poll { continuation := some "tok", seenIds := [] }
          (Except.ok c3Resp) []).1.1 =
        [{ id := "", channel_id := "", display_name := "Unknown",
           message := "hello", published_at := "", is_owner := false,
           is_moderator := false, is_member := false }] := by
  decide

/-- Renderer with no message runs (reconstructed text is empty). -/
def c3EmptyRend : RendererJ :=
  { message := none, authorName := some { simpleText := some "Bob" },
    authorExternalChannelId := some "UC1", id := some "m9",
    timestampUsec := none, authorBadges := none }

/-- Action wrapping `c3EmptyRend`. -/
def c3EmptyAction : ActionJ :=
  { addChatItemAction :=
      some { item := some { liveChatTextMessageRenderer := some c3EmptyRend } } }

theorem parseAction_skip_iff_witness :
    parseAction { addChatItemAction := none } = none ∧
      parseAction c3EmptyAction = none :=
  ⟨(parseAction_skip_iff { addChatItemAction := none }).1.mpr (Or.inl rfl),
    (parseAction_skip_iff c3EmptyAction).1.mpr (Or.inr ⟨c3EmptyRend, rfl, rfl⟩)⟩

/-! ## Orchestration-loop lemmas -/

/-- `_process_message` never touches the `_initial_fetch` flag. -/
theorem processMessage_initialFetch (cmdDefs : Option (List CmdDef))
    (st : BotState) (now : Int) (m : Message) :
    (processMessage cmdDefs st now m).initialFetch = st.initialFetch := by
  unfold processMessage
  dsimp only
  split_ifs <;> try rfl
  all_goals
    cases hq : (parse_poll_command m.message).1 <;>
      cases ho : (parse_poll_command m.message).2 <;>
      dsimp only <;> split_ifs <;> rfl

theorem processBatch_initialFetch (cmdDefs : Option (List CmdDef))
    (st : BotState) (batch : List (Message × Int)) :
    (processBatch cmdDefs st batch).initialFetch = st.initialFetch := by
  induction batch generalizing st with
  | nil => rfl
  | cons p rest ih =>
    show (processBatch cmdDefs (processMessage cmdDefs st p.2 p.1) rest).initialFetch = _
    rw [ih, processMessage_initialFetch]

/-- Once the seeding flag is down, the loop is exactly the fold of the
full per-message pipeline over the batches. -/
theorem runLoop_noSeed (cmdDefs : Option (List CmdDef))
    (bs : List (List (Message × Int))) :
    ∀ st : BotState, st.initialFetch = false →
      runLoop cmdDefs st bs = bs.foldl (processBatch cmdDefs) st := by
  induction bs with
  | nil =>
    intro st _
    rfl
  | cons b rest ih =>
    intro st h
    have hc : pollCycle cmdDefs st b = processBatch cmdDefs st b := by
      unfold pollCycle
      rw [h]
      simp
    show runLoop cmdDefs (pollCycle cmdDefs st b) rest = _
    rw [hc, ih _ (by rw [processBatch_initialFetch]; exact h), List.foldl_cons]

/-! ## C2 — exactly one seeding cycle -/

/-- C2: with the seeding flag up, the first poll batch is routed only to
`seed_from_history` — nothing is published, the router is untouched, and
the flag goes down — and every message of every subsequent cycle goes
through the full per-message pipeline (the rest of the run is exactly the
pipeline fold). -/
theorem first_poll_only_seeds (cmdDefs : Option (List CmdDef)) (st : BotState)
    (b : List (Message × Int)) (bs : List (List (Message × Int)))
    (h : st.initialFetch = true) :
    runLoop cmdDefs st (b :: bs) =
      List.foldl (processBatch cmdDefs)
        { st with tracker := seedFromHistory st.tracker (b.map Prod.fst),
                  initialFetch := false } bs ∧
      (pollCycle cmdDefs st b).sent = st.sent ∧
      (pollCycle cmdDefs st b).pollsCreated = st.pollsCreated ∧
      (pollCycle cmdDefs st b).router = st.router ∧
      (pollCycle cmdDefs st b).initialFetch = false := by
  have hseed : pollCycle cmdDefs st b =
      { st with tracker := seedFromHistory st.tracker (b.map Prod.fst),
                initialFetch := false } := by
    unfold pollCycle
    rw [h]
    simp
  refine ⟨?_, by rw [hseed], by rw [hseed], by rw [hseed], by rw [hseed]⟩
  show runLoop cmdDefs (pollCycle cmdDefs st b) bs = _
  rw [hseed, runLoop_noSeed]
  rfl

/-- Concrete two-cycle run witnessing C2: one chatter in the history
batch, one new chatter afterwards. -/
def c2Msg1 : Message :=
  { id := "m1", channel_id := "UCalice", display_name := "Alice",
    message := "hello", published_at := "", is_owner := false,
    is_moderator := false, is_member := false }

def c2Msg2 : Message :=
  { id := "m2", channel_id := "UCbob", display_name := "Bob",
    message := "hi there", published_at := "", is_owner := false,
    is_moderator := false, is_member := false }

def c2Start : BotState :=
  { initialFetch := true,
    tracker := { seen := [], botChannelId := none, ownerChannelId := none,
                 store := none },
    router := { lookup := [], cooldowns := [], prefixStr := "/",
                cooldownSeconds := 5 },
    sent := [], pollsCreated := [] }

theorem first_poll_only_seeds_witness :
    runLoop none c2Start [[(c2Msg1, 0)], [(c2Msg2, 10)]] =
      List.foldl (processBatch none)
        { c2Start with
            tracker := seedFromHistory c2Start.tracker [c2Msg1],
            initialFetch := false } [[(c2Msg2, 10)]] ∧
      (pollCycle none c2Start [(c2Msg1, 0)]).sent = [] :=
  ⟨(first_poll_only_seeds none c2Start [(c2Msg1, 0)] [[(c2Msg2, 10)]] rfl).1,
    (first_poll_only_seeds none c2Start [(c2Msg1, 0)] [[(c2Msg2, 10)]] rfl).2.1⟩

/-- Unfolded form of `pollOnline` (proof convenience). -/
theorem pollOnline_def (st : ReaderState) (resp : ResponseJ) (enum : List String) :
    pollOnline st resp enum =
      (((dedupInsert st.seenIds ((chatDataOf resp).actions.getD [])).1,
          getPollingInterval ((chatDataOf resp).continuations.getD [])),
        { continuation :=
            updateContinuation ((chatDataOf resp).continuations.getD [])
              st.continuation,
          seenIds :=
            capSeen (dedupInsert st.seenIds ((chatDataOf resp).actions.getD [])).2
              enum }) := rfl

/-! ## C1 — the SeenSet cap (amended) -/

/-- C1 (amended): after every successful `poll()` the seen-id set holds at
most 5000 ids; when the insertions push it past the cap it is cut to
exactly 2000 ids, all drawn from the pre-cut set (so it is never cleared
entirely) — but *which* 2000 survive depends on the enumeration order
CPython produces for `list(self._seen_ids)`, which is not insertion order
(see the counterexample: the survivors need not be the most recently
inserted ids). -/
theorem seenSet_capped_not_cleared (st : ReaderState) (tok : String)
    (resp : ResponseJ) (enum : List String)
    (hc : st.continuation = some tok)
    (hperm : enum.Perm (dedupInsert st.seenIds ((chatDataOf resp).actions.getD [])).2) :
    (poll st (Except.ok resp) enum).2.seenIds.length ≤ 5000 ∧
      (5000 < (dedupInsert st.seenIds ((chatDataOf resp).actions.getD [])).2.length →
        (poll st (Except.ok resp) enum).2.seenIds.length = 2000 ∧
        ∀ x ∈ (poll st (Except.ok resp) enum).2.seenIds,
          x ∈ (dedupInsert st.seenIds ((chatDataOf resp).actions.getD [])).2) ∧
      ((dedupInsert st.seenIds ((chatDataOf resp).actions.getD [])).2 ≠ [] →
        (poll st (Except.ok resp) enum).2.seenIds ≠ []) := by
  have hseen : (poll st (Except.ok resp) enum).2.seenIds =
      capSeen (dedupInsert st.seenIds ((chatDataOf resp).actions.getD [])).2 enum := by
    unfold poll
    rw [hc]
    rfl
  rw [hseen]
  have hlen : enum.length =
      (dedupInsert st.seenIds ((chatDataOf resp).actions.getD [])).2.length :=
    hperm.length_eq
  unfold capSeen
  by_cases hbig :
      (dedupInsert st.seenIds ((chatDataOf resp).actions.getD [])).2.length > 5000
  · rw [if_pos hbig]
    unfold pyLastSlice
    refine ⟨?_, fun _ => ⟨?_, ?_⟩, fun _ hcon => ?_⟩
    · rw [List.length_drop]
      omega
    · rw [List.length_drop]
      omega
    · intro x hx
      exact hperm.mem_iff.1 (List.mem_of_mem_drop hx)
    · have hlc := congrArg List.length hcon
      rw [List.length_drop] at hlc
      simp at hlc
      omega
  · rw [if_neg hbig]
    exact ⟨by omega, fun hb => absurd hb hbig, fun h => h⟩

theorem seenSet_capped_not_cleared_witness :
    (poll { continuation := some "t", seenIds := [] }
      (Except.ok { continuationContents := none }) []).2.seenIds.length ≤ 5000 :=
  (seenSet_capped_not_cleared
    { continuation := some "t", seenIds := [] } "t"
    { continuationContents := none } [] rfl (List.Perm.refl _)).1

/-- Distinct id strings for the C1 counterexample (`"a"` repeated `n`
times, so they are pairwise distinct). -/
def c1Id (n : Nat) : String := String.mk (List.replicate n 'a')

/-- `[c1Id i, c1Id (i+1), …, c1Id (i+k-1)]`. -/
def c1SeenAux : Nat → Nat → List String
  | _, 0 => []
  | i, k + 1 => c1Id i :: c1SeenAux (i + 1) k

/-- 5000 ids already seen before the counterexample poll, in insertion
order `c1Id 0, c1Id 1, …`. -/
def c1Seen : List String := c1SeenAux 0 5000

/-- The one id freshly inserted by the counterexample poll — the most
recently inserted id of all. -/
def c1New : String := c1Id 5000

/-- Renderer of the counterexample event carrying `c1New`. -/
def c1Rend : RendererJ :=
  { message := some { runs := some [{ text := some "x", emoji := none }] },
    authorName := none, authorExternalChannelId := some "UCnew",
    id := some c1New, timestampUsec := none, authorBadges := none }

def c1Action : ActionJ :=
  { addChatItemAction :=
      some { item := some { liveChatTextMessageRenderer := some c1Rend } } }

def c1LC : LiveChatContinuationJ :=
  { actions := some [c1Action], continuations := none }

def c1Resp : ResponseJ :=
  { continuationContents := some { liveChatContinuation := some c1LC } }

/-- The `Message` the counterexample event parses to. -/
def c1Msg : Message :=
  { id := c1New, channel_id := "UCnew", display_name := "Unknown",
    message := "x", published_at := "", is_owner := false,
    is_moderator := false, is_member := false }

/-- An enumeration CPython may produce for the 5001-element set: the
newest id first.  (Set iteration order is unspecified and is not insertion
order.) -/
def c1Enum : List String := c1New :: c1Seen

def c1St : ReaderState := { continuation := some "tok", seenIds := c1Seen }

theorem c1Id_inj {m n : Nat} (h : c1Id m = c1Id n) : m = n := by
  unfold c1Id at h
  have h2 : List.replicate m 'a' = List.replicate n 'a' := congrArg String.data h
  have h3 := congrArg List.length h2
  simpa using h3

theorem c1SeenAux_length (k : Nat) : ∀ i, (c1SeenAux i k).length = k := by
  induction k with
  | zero => intro i; rfl
  | succ k ih =>
    intro i
    show (c1Id i :: c1SeenAux (i + 1) k).length = k + 1
    rw [List.length_cons, ih]

theorem c1SeenAux_mem (k : Nat) :
    ∀ i (x : String), x ∈ c1SeenAux i k → ∃ j, i ≤ j ∧ j < i + k ∧ x = c1Id j := by
  induction k with
  | zero => intro i x hx; cases hx
  | succ k ih =>
    intro i x hx
    rw [show c1SeenAux i (k + 1) = c1Id i :: c1SeenAux (i + 1) k from rfl,
      List.mem_cons] at hx
    rcases hx with rfl | hx
    · exact ⟨i, le_refl i, by omega, rfl⟩
    · obtain ⟨j, h1, h2, h3⟩ := ih (i + 1) x hx
      exact ⟨j, by omega, by omega, h3⟩

theorem c1New_not_mem : c1New ∉ c1Seen := by
  intro h
  obtain ⟨j, _, hlt, he⟩ := c1SeenAux_mem 5000 0 c1New h
  have := c1Id_inj (m := 5000) (n := j) he
  omega

/-- One-action instance of the dedup loop: a fresh parsed message is
emitted and its id recorded. -/
theorem dedupInsert_singleton (seen : List String) (a : ActionJ) (m : Message)
    (hp : parseAction a = some m) (hmem : m.id ∉ seen) :
    dedupInsert seen [a] = ([m], seen ++ [m.id]) := by
  unfold dedupInsert
  rw [List.foldl_cons, List.foldl_nil]
  simp only [hp]
  rw [if_neg hmem, List.nil_append]

theorem c1_dedup : dedupInsert c1Seen [c1Action] = ([c1Msg], c1Seen ++ [c1New]) := by
  rw [dedupInsert_singleton c1Seen c1Action c1Msg rfl c1New_not_mem]
  rfl

theorem c1_post_length : (c1Seen ++ [c1New]).length = 5001 := by
  rw [List.length_append]
  rw [show c1Seen.length = 5000 from c1SeenAux_length 5000 0]
  rfl

theorem c1_enum_length : c1Enum.length = 5001 := by
  rw [show c1Enum.length = c1Seen.length + 1 from List.length_cons _ _]
  rw [show c1Seen.length = 5000 from c1SeenAux_length 5000 0]

theorem c1_capSeen : capSeen (c1Seen ++ [c1New]) c1Enum = c1Seen.drop 3000 := by
  unfold capSeen
  rw [if_pos (by rw [c1_post_length]; norm_num)]
  unfold pyLastSlice
  rw [c1_enum_length]
  show (c1New :: c1Seen).drop (3000 + 1) = c1Seen.drop 3000
  exact List.drop_succ_cons

/-- C1 counterexample: with 5000 ids already seen, a poll inserting one
fresh id (`c1New`, the most recently inserted of all 5001) triggers the
cap.  The enumeration `c1Enum` is a valid `list(...)` of the set (a
permutation of its elements), yet after the cut `c1New` is gone — the
surviving 2000 ids are *not* the 2000 most recently inserted, refuting the
eviction-order part of the claim. -/
theorem seenSet_eviction_counterexample :
    c1Enum.Perm (c1Seen ++ [c1New]) ∧
      (poll c1St (Except.ok c1Resp) c1Enum).1.1 = [c1Msg] ∧
      c1Msg.id = c1New ∧
      c1New ∉ (poll c1St (Except.ok c1Resp) c1Enum).2.seenIds := by
  have hperm : c1Enum.Perm (c1Seen ++ [c1New]) :=
    (List.perm_append_singleton _ _).symm
  have hpoll : poll c1St (Except.ok c1Resp) c1Enum = pollOnline c1St c1Resp c1Enum :=
    rfl
  have hact : (chatDataOf c1Resp).actions.getD [] = [c1Action] := rfl
  have hst : c1St.seenIds = c1Seen := Eq.refl c1Seen
  have hon := pollOnline_def c1St c1Resp c1Enum
  rw [hact, hst, c1_dedup] at hon
  dsimp only at hon
  have hmsgs : (poll c1St (Except.ok c1Resp) c1Enum).1.1 = [c1Msg] := by
    rw [hpoll, hon]
  have hseen : (poll c1St (Except.ok c1Resp) c1Enum).2.seenIds = c1Seen.drop 3000 := by
    rw [hpoll, hon, c1_capSeen]
  refine ⟨hperm, hmsgs, rfl, ?_⟩
  rw [hseen]
  intro hmem
  exact c1New_not_mem (List.mem_of_mem_drop hmem)

end Stryker
